import Mathlib

/-!
Verification of the LACRM MCP server core against its specification.

The development shallowly embeds the core components of the repository:

* the LACRM API client (`src/client.ts`): request construction for
  `LacrmClient.call` and `LacrmClient.callWithFile`, the effect sequence each
  method performs, and the classification of HTTP responses into success
  payloads and typed errors;
* the error hierarchy and `formatErrorForLLM` (`src/utils/errors.ts`);
* the discovery tools (`src/tools/discovery/index.ts`): fixed-field tables,
  `getInputFormatDescription`, `formatCustomFieldForAI`, the
  `get_custom_fields` handler parameter assembly, and the
  `get_contact_schema` composition.

JSON values are modelled by an inductive `Json` type; JSON numbers are
modelled as integers (the float formatting of JavaScript numbers is outside
this embedding).  `JSON.stringify` and `JSON.parse` are modelled by an
executable serializer and an executable recursive-descent parser over that
type.
-/

namespace LacrmMcp

/-- JSON values.  Numbers are modelled as integers; objects are ordered
association lists (JavaScript objects have unique keys, which this model
does not enforce but also never produces). -/
inductive Json where
  | null
  | bool (b : Bool)
  | num (n : Int)
  | str (s : String)
  | arr (elems : List Json)
  | obj (members : List (String × Json))

/-- First binding of a key in an association list of object members,
modelling JavaScript property lookup. -/
def jsLookup (key : String) : List (String × Json) → Option Json
  | [] => none
  | (k, v) :: rest => if k = key then some v else jsLookup key rest

/-- Model of the JavaScript test `key in data` on an object value. -/
def hasKey (key : String) (members : List (String × Json)) : Bool :=
  (jsLookup key members).isSome

/-- Model of `data && typeof data === 'object' && 'ErrorCode' in data`
from `src/client.ts`.  `null` is falsy; arrays are objects in JavaScript
but can never own an `ErrorCode` property. -/
def Json.isErrorObject : Json → Bool
  | .obj members => hasKey "ErrorCode" members
  | _ => false

/-- Property access `data.ErrorCode` on a parsed body (after the guard). -/
def Json.getKey : Json → String → Option Json
  | .obj members, key => jsLookup key members
  | _, _ => none

/-! ### Decimal rendering of natural numbers

Used for the `HTTP_<status>` error code, the generic error message, and the
JSON serializer.  Defined with a structural fuel argument so that concrete
instances reduce inside the kernel. -/

/-- The decimal digit character for `d < 10`. -/
def digitChar (d : Nat) : Char := Char.ofNat (48 + d)

/-- Little-endian decimal digits of `n`, with explicit fuel. -/
def natCharsRevFuel : Nat → Nat → List Char
  | 0, _ => []
  | fuel + 1, n => if n = 0 then [] else digitChar (n % 10) :: natCharsRevFuel fuel (n / 10)

/-- Little-endian decimal digits of `n` (`n` itself is always enough fuel). -/
def natCharsRev (n : Nat) : List Char := natCharsRevFuel n n

/-- Decimal digit characters of `n`, most significant first. -/
def natChars (n : Nat) : List Char :=
  if n = 0 then ['0'] else (natCharsRev n).reverse

/-- Decimal string of a natural number. -/
def natStr (n : Nat) : String := (natChars n).asString

/-! ### HTTP model and response classification -/

/-- The observable part of a `fetch` response: status, status text and the
outcome of `response.json()` (`none` when parsing the body threw). -/
structure HttpResponse where
  status : Nat
  statusText : String
  jsonBody : Option Json

/-- `Response.ok`: status in the 2xx range. -/
def responseOk (status : Nat) : Bool := 200 ≤ status && status ≤ 299

/-- Default message of `AuthenticationError` (`src/utils/errors.ts`). -/
def AUTH_DEFAULT_MESSAGE : String :=
  "Invalid or missing API key. Set LACRM_API_KEY environment variable."

/-- Result of one `call` / `callWithFile` invocation after the response has
been classified.  `authError` carries the `AuthenticationError` message;
`apiError` carries the `ApiError` code and message, each being the raw
looked-up JSON value (`none` models a missing property, i.e. `undefined`).
`transportError` models `response.json()` throwing on a 2xx response, which
`call` does not catch. -/
inductive CallResult where
  | success (data : Json)
  | authError (message : String)
  | apiError (code : Option Json) (description : Option Json)
  | transportError

/-- The generic HTTP error thrown when a non-2xx body is unparseable or has
no `ErrorCode` field: `new ApiError('HTTP_<status>', 'HTTP error: <status>
<statusText>')`. -/
def genericHttpError (status : Nat) (statusText : String) : CallResult :=
  .apiError (some (.str ("HTTP_" ++ natStr status)))
    (some (.str ("HTTP error: " ++ natStr status ++ " " ++ statusText)))

/-- Response classification shared verbatim by `LacrmClient.call`
(lines 98-137 of `src/client.ts`) and `LacrmClient.callWithFile`
(lines 192-231): on a non-ok status, 401/403 throw `AuthenticationError`
before the body is read, otherwise the body parse outcome selects either the
body-reported `ApiError` or the generic HTTP error; on an ok status the body
is parsed and an `ErrorCode`-bearing object still throws `ApiError`, any
other value being returned as the success payload unchanged. -/
def classify (r : HttpResponse) : CallResult :=
  if ¬ responseOk r.status then
    if r.status = 401 ∨ r.status = 403 then .authError AUTH_DEFAULT_MESSAGE
    else
      match r.jsonBody with
      | none => genericHttpError r.status r.statusText
      | some data =>
        if data.isErrorObject then
          .apiError (data.getKey "ErrorCode") (data.getKey "ErrorDescription")
        else genericHttpError r.status r.statusText
  else
    match r.jsonBody with
    | none => .transportError
    | some data =>
      if data.isErrorObject then
        .apiError (data.getKey "ErrorCode") (data.getKey "ErrorDescription")
      else .success data

/-! ### JSON serialization (`JSON.stringify`)

The serializer follows the default (no-whitespace) output of
`JSON.stringify`: string escapes for `"` and `\`, short escapes for the
control characters BS, TAB, LF, FF, CR, and `\u00XX` for the remaining
control characters. -/

/-- Lowercase hexadecimal digit character for `d < 16`. -/
def hexDigitChar (d : Nat) : Char :=
  if d < 10 then Char.ofNat (48 + d) else Char.ofNat (87 + d)

/-- `JSON.stringify` escaping of one character inside a string literal. -/
def escapeChar (c : Char) : List Char :=
  if c = '"' then ['\\', '"']
  else if c = '\\' then ['\\', '\\']
  else if c = Char.ofNat 8 then ['\\', 'b']
  else if c = '\t' then ['\\', 't']
  else if c = '\n' then ['\\', 'n']
  else if c = Char.ofNat 12 then ['\\', 'f']
  else if c = '\r' then ['\\', 'r']
  else if c.toNat < 32 then
    ['\\', 'u', '0', '0', hexDigitChar (c.toNat / 16), hexDigitChar (c.toNat % 16)]
  else [c]

/-- Escape every character of a string body. -/
def escapeChars : List Char → List Char
  | [] => []
  | c :: cs => escapeChar c ++ escapeChars cs

/-- Serialized JSON string literal, quotes included. -/
def serStr (s : String) : List Char :=
  '"' :: (escapeChars s.data ++ ['"'])

/-- Serialized decimal form of a JSON (integer) number. -/
def intChars (n : Int) : List Char :=
  if n < 0 then '-' :: natChars n.natAbs else natChars n.toNat

mutual

/-- Serialized characters of a JSON value (`JSON.stringify` with no
indentation argument, hence no whitespace). -/
def serJson : Json → List Char
  | .num n => intChars n
  | .str s => serStr s
  | .null => ['n', 'u', 'l', 'l']
  | .bool false => ['f', 'a', 'l', 's', 'e']
  | .bool true => ['t', 'r', 'u', 'e']
  | .arr [] => ['[', ']']
  | .arr (v :: vs) => '[' :: serElems v vs
  | .obj [] => ['\x7b', '\x7d']
  | .obj (m :: ms) => '\x7b' :: serMembers m ms
termination_by j => sizeOf j
decreasing_by all_goals (simp_wf; try omega)

/-- Serialized characters of a nonempty array tail, up to and including the
closing bracket. -/
def serElems : Json → List Json → List Char
  | v, [] => serJson v ++ [']']
  | v, w :: ws => serJson v ++ ',' :: serElems w ws
termination_by v vs => 1 + sizeOf v + sizeOf vs
decreasing_by all_goals (simp_wf; try omega)

/-- Serialized characters of a nonempty member list, up to and including
the closing brace. -/
def serMembers : String × Json → List (String × Json) → List Char
  | (k, v), [] => serStr k ++ ':' :: (serJson v ++ ['\x7d'])
  | (k, v), m :: ms => serStr k ++ ':' :: (serJson v ++ ',' :: serMembers m ms)
termination_by m ms => 1 + sizeOf m + sizeOf ms
decreasing_by all_goals (simp_wf; try omega)

end

/-- `JSON.stringify`, modelled on `Json`. -/
def jsonStringify (v : Json) : String := (serJson v).asString

/-! ### JSON parsing (`JSON.parse`)

A strict recursive-descent parser over the serialized character stream.
It accepts exactly the whitespace-free output of the serializer (which is
what `JSON.stringify` emits), so it suffices to state the round-trip
property claimed for the `Parameters` multipart field. -/

/-- Decimal digit test. -/
def isDigitChar (c : Char) : Bool := 48 ≤ c.toNat && c.toNat ≤ 57

/-- Value of a decimal digit character. -/
def digitVal (c : Char) : Nat := c.toNat - 48

/-- Consume a run of decimal digits, accumulating their value. -/
def parseDigits : List Char → Nat → Nat × List Char
  | [], acc => (acc, [])
  | c :: rest, acc =>
    if isDigitChar c then parseDigits rest (acc * 10 + digitVal c) else (acc, c :: rest)

/-- Value of a hexadecimal digit character (upper or lower case). -/
def hexVal (c : Char) : Option Nat :=
  if 48 ≤ c.toNat ∧ c.toNat ≤ 57 then some (c.toNat - 48)
  else if 97 ≤ c.toNat ∧ c.toNat ≤ 102 then some (c.toNat - 87)
  else if 65 ≤ c.toNat ∧ c.toNat ≤ 70 then some (c.toNat - 55)
  else none

/-- Resolution of a single-character escape sequence. -/
def unescape (c : Char) : Option Char :=
  if c = '"' then some '"'
  else if c = '\\' then some '\\'
  else if c = '/' then some '/'
  else if c = 'b' then some (Char.ofNat 8)
  else if c = 'f' then some (Char.ofNat 12)
  else if c = 'n' then some '\n'
  else if c = 'r' then some '\r'
  else if c = 't' then some '\t'
  else none

/-- Parse the body of a string literal after the opening quote, up to and
including the closing quote, returning the decoded characters and the
remaining input. -/
def parseStrBody : List Char → Option (List Char × List Char)
  | [] => none
  | c :: rest =>
    if c = '"' then some ([], rest)
    else if c = '\\' then
      match rest with
      | [] => none
      | e :: rest2 =>
        if e = 'u' then
          match rest2 with
          | a :: b :: c2 :: d :: rest3 =>
            match hexVal a, hexVal b, hexVal c2, hexVal d with
            | some ha, some hb, some hc, some hd =>
              match parseStrBody rest3 with
              | some (s, r) =>
                some (Char.ofNat (((ha * 16 + hb) * 16 + hc) * 16 + hd) :: s, r)
              | none => none
            | _, _, _, _ => none
          | _ => none
        else
          match unescape e with
          | some ch =>
            match parseStrBody rest2 with
            | some (s, r) => some (ch :: s, r)
            | none => none
          | none => none
    else
      match parseStrBody rest with
      | some (s, r) => some (c :: s, r)
      | none => none

mutual

/-- Parse one JSON value.  The fuel argument makes the mutual recursion
structural; any fuel of at least the input length suffices. -/
def parseVal : Nat → List Char → Option (Json × List Char)
  | 0, _ => none
  | _ + 1, [] => none
  | fuel + 1, c :: rest =>
    if isDigitChar c then
      let p := parseDigits rest (digitVal c)
      some (.num (Int.ofNat p.1), p.2)
    else if c = '-' then
      match rest with
      | [] => none
      | c2 :: rest2 =>
        if isDigitChar c2 then
          let p := parseDigits rest2 (digitVal c2)
          some (.num (-(Int.ofNat p.1)), p.2)
        else none
    else if c = '"' then
      match parseStrBody rest with
      | some (s, r) => some (.str (String.mk s), r)
      | none => none
    else if c = '[' then
      match rest with
      | [] => none
      | c2 :: rest2 =>
        if c2 = ']' then some (.arr [], rest2)
        else
          match parseElems fuel rest with
          | some (vs, r) => some (.arr vs, r)
          | none => none
    else if c = '\x7b' then
      match rest with
      | [] => none
      | c2 :: rest2 =>
        if c2 = '\x7d' then some (.obj [], rest2)
        else
          match parseMembers fuel rest with
          | some (ms, r) => some (.obj ms, r)
          | none => none
    else if c = 'n' then
      match rest with
      | 'u' :: 'l' :: 'l' :: r => some (.null, r)
      | _ => none
    else if c = 't' then
      match rest with
      | 'r' :: 'u' :: 'e' :: r => some (.bool true, r)
      | _ => none
    else if c = 'f' then
      match rest with
      | 'a' :: 'l' :: 's' :: 'e' :: r => some (.bool false, r)
      | _ => none
    else none

/-- Parse the elements of a nonempty array, up to and including the
closing bracket. -/
def parseElems : Nat → List Char → Option (List Json × List Char)
  | 0, _ => none
  | fuel + 1, input =>
    match parseVal fuel input with
    | none => none
    | some (v, r) =>
      match r with
      | [] => none
      | c :: r2 =>
        if c = ',' then
          match parseElems fuel r2 with
          | some (vs, r3) => some (v :: vs, r3)
          | none => none
        else if c = ']' then some ([v], r2)
        else none

/-- Parse the members of a nonempty object, up to and including the
closing brace. -/
def parseMembers : Nat → List Char → Option (List (String × Json) × List Char)
  | 0, _ => none
  | fuel + 1, input =>
    match input with
    | [] => none
    | c :: rest =>
      if c = '"' then
        match parseStrBody rest with
        | none => none
        | some (k, r) =>
          match r with
          | ':' :: r2 =>
            match parseVal fuel r2 with
            | none => none
            | some (v, r3) =>
              match r3 with
              | [] => none
              | c3 :: r4 =>
                if c3 = ',' then
                  match parseMembers fuel r4 with
                  | some (ms, r5) => some ((String.mk k, v) :: ms, r5)
                  | none => none
                else if c3 = '\x7d' then some ([(String.mk k, v)], r4)
                else none
          | _ => none
      else none

end

/-- The input does not begin with a decimal digit (the condition under
which a serialized number followed by that input parses back exactly). -/
def noDigitHead : List Char → Bool
  | [] => true
  | c :: _ => !isDigitChar c

/-- `JSON.parse`, modelled on `Json`: the whole input must be consumed. -/
def jsonParseChars (input : List Char) : Option Json :=
  match parseVal (input.length + 1) input with
  | some (v, []) => some v
  | _ => none

/-- `JSON.parse` on a string. -/
def jsonParse (s : String) : Option Json := jsonParseChars s.data

/-! ### Request construction and effect sequences of the API client -/

/-- One entry of a `FormData` body: a plain form field or a file part
(filename, content bytes, MIME type). -/
inductive FormEntry where
  | field (name value : String)
  | file (name filename : String) (content : List Nat) (mimeType : String)

/-- Body of an outgoing request: a serialized JSON text or multipart form
data. -/
inductive RequestBody where
  | jsonText (text : String)
  | multipart (entries : List FormEntry)

/-- An outgoing HTTP request as handed to `fetch`. -/
structure HttpRequest where
  url : String
  method : String
  headers : List (String × String)
  body : RequestBody

/-- LACRM API v2 endpoint (`src/client.ts`). -/
def API_BASE_URL : String := "https://api.lessannoyingcrm.com/v2/"

/-- A file to upload, as accepted by `callWithFile`. -/
structure UploadFile where
  name : String
  content : List Nat
  mimeType : String

/-- The request issued by `LacrmClient.call` (lines 82-96 of
`src/client.ts`): a POST to the single endpoint with JSON body
`{Function, Parameters}`, a JSON content type, and the raw API key in the
`Authorization` header. -/
def callRequest (apiKey functionName : String) (parameters : List (String × Json)) :
    HttpRequest :=
  { url := API_BASE_URL
    method := "POST"
    headers := [("Content-Type", "application/json"), ("Authorization", apiKey)]
    body := .jsonText (jsonStringify
      (.obj [("Function", .str functionName), ("Parameters", .obj parameters)])) }

/-- The request issued by `LacrmClient.callWithFile` (lines 169-190 of
`src/client.ts`): multipart form data with a `Function` field, a
`Parameters` field holding `JSON.stringify(parameters)`, and a `File` part
carrying the exact content bytes under the declared MIME type and filename;
no `Content-Type` header is set (the transport adds the multipart boundary
itself), only `Authorization`. -/
def callWithFileRequest (apiKey functionName : String)
    (parameters : List (String × Json)) (file : UploadFile) : HttpRequest :=
  { url := API_BASE_URL
    method := "POST"
    headers := [("Authorization", apiKey)]
    body := .multipart
      [ .field "Function" functionName,
        .field "Parameters" (jsonStringify (.obj parameters)),
        .file "File" file.name file.content file.mimeType ] }

/-- Observable effects performed by a client method, in program order. -/
inductive ClientEffect where
  | acquireRateLimitSlot
  | logDebug (message : String)
  | httpDispatch (request : HttpRequest)

/-- The effect sequence of `LacrmClient.call` (lines 78-96 of
`src/client.ts`) up to the dispatch of the HTTP request: a debug log
followed immediately by `fetch`.  The method contains no rate-limiter
acquisition, and the repository contains no rate-limiter implementation. -/
def callEffects (apiKey functionName : String) (parameters : List (String × Json)) :
    List ClientEffect :=
  [ .logDebug ("API call: " ++ functionName),
    .httpDispatch (callRequest apiKey functionName parameters) ]

/-- The effect sequence of `LacrmClient.callWithFile` (lines 164-190 of
`src/client.ts`) up to the dispatch of the HTTP request. -/
def callWithFileEffects (apiKey functionName : String)
    (parameters : List (String × Json)) (file : UploadFile) : List ClientEffect :=
  [ .logDebug ("API call with file: " ++ functionName),
    .httpDispatch (callWithFileRequest apiKey functionName parameters file) ]

/-- One complete `call` invocation against a fixed transport response: the
request that is dispatched and the classified outcome. -/
def callRun (apiKey functionName : String) (parameters : List (String × Json))
    (response : HttpResponse) : HttpRequest × CallResult :=
  (callRequest apiKey functionName parameters, classify response)

/-- One complete `callWithFile` invocation against a fixed transport
response. -/
def callWithFileRun (apiKey functionName : String)
    (parameters : List (String × Json)) (file : UploadFile)
    (response : HttpResponse) : HttpRequest × CallResult :=
  (callWithFileRequest apiKey functionName parameters file, classify response)

/-! ### Error classes and `formatErrorForLLM` (`src/utils/errors.ts`) -/

/-- An error value as thrown in the server: the four LACRM error classes,
a plain `Error`, or a non-`Error` throwable.  Each constructor carries the
fields `formatErrorForLLM` inspects. -/
inductive ThrownError where
  | authentication (message : String)
  | validation (message : String)
  | notFound (message : String)
  | api (code : String) (message : String)
  | generic (message : String)
  | nonError

/-- JavaScript string coercion of a JSON value, as performed by a template
literal.  Arrays join their coerced elements with commas (`null` becoming
empty); plain objects coerce to `[object Object]`. -/
def jsStringCoerce : Json → String
  | .null => "null"
  | .bool true => "true"
  | .bool false => "false"
  | .num n => (intChars n).asString
  | .str s => s
  | .obj _ => "[object Object]"
  | .arr l => String.intercalate "," (l.map fun e =>
      match e with
      | .null => ""
      | .obj _ => "[object Object]"
      | .arr _ => ""
      | .bool true => "true"
      | .bool false => "false"
      | .num n => (intChars n).asString
      | .str s => s)

/-- Coercion of a possibly missing property value (`undefined` prints as
`undefined` in a template literal). -/
def jsStringCoerceOpt : Option Json → String
  | some v => jsStringCoerce v
  | none => "undefined"

/-- The error object thrown by `call` / `callWithFile` for a given
classification outcome (`none` when the call succeeds). -/
def thrownOfResult : CallResult → Option ThrownError
  | .success _ => none
  | .authError m => some (.authentication m)
  | .apiError code description =>
    some (.api (jsStringCoerceOpt code) (jsStringCoerceOpt description))
  | .transportError => some (.generic "body parse failure")

/-- `formatErrorForLLM` (lines 112-134 of `src/utils/errors.ts`). -/
def formatErrorForLLM : ThrownError → String
  | .authentication _ =>
    "Authentication failed. Ensure LACRM_API_KEY is set correctly in your environment."
  | .notFound m => m
  | .validation m => "Validation error: " ++ m
  | .api code m => "API error (" ++ code ++ "): " ++ m
  | .generic m => "Error: " ++ m
  | .nonError => "An unexpected error occurred."

/-! ### Discovery tools (`src/tools/discovery/index.ts`) -/

/-- Schema field definition for AI consumption (`SchemaField`). -/
structure SchemaField where
  name : String
  required : Bool
  type : String
  input_format : String
  valid_options : Option (List String) := none
  is_custom_field : Bool
  field_id : Option String := none
  notes : Option String := none
deriving DecidableEq

/-- Fixed fields for Contact records (`CONTACT_FIXED_FIELDS`,
lines 41-119). -/
def CONTACT_FIXED_FIELDS : List SchemaField :=
  [ { name := "name", required := true, type := "Text",
      input_format := "Full name as string (e.g., \"John Smith\")",
      is_custom_field := false,
      notes := some "For contacts, use full name. For companies, this becomes the company name." },
    { name := "assigned_to", required := true, type := "Uid",
      input_format := "User ID from get_users (e.g., \"123456789\")",
      is_custom_field := false,
      notes := some "Use get_users to find valid user IDs" },
    { name := "email", required := false, type := "Array",
      input_format := "Array of \x7btext: \"email@example.com\", type: \"Work\"|\"Personal\"|\"Other\"\x7d",
      is_custom_field := false,
      notes := some "Can include multiple email addresses with different types" },
    { name := "phone", required := false, type := "Array",
      input_format := "Array of \x7btext: \"555-123-4567\", type: \"Work\"|\"Mobile\"|\"Home\"|\"Fax\"|\"Other\"\x7d",
      is_custom_field := false,
      notes := some "Can include multiple phone numbers with different types" },
    { name := "company_name", required := false, type := "Text",
      input_format := "Company name as string",
      is_custom_field := false,
      notes := some "Links contact to existing company or creates new one if not found" },
    { name := "job_title", required := false, type := "Text",
      input_format := "Job title as string (e.g., \"Sales Manager\")",
      is_custom_field := false },
    { name := "address", required := false, type := "Array",
      input_format := "Array of \x7bstreet, city, state, zip, country, type: \"Work\"|\"Home\"|\"Other\"\x7d",
      is_custom_field := false,
      notes := some "Can include multiple addresses with different types" },
    { name := "website", required := false, type := "Array",
      input_format := "Array of \x7btext: \"https://example.com\", type: \"Work\"|\"Personal\"|\"Other\"\x7d",
      is_custom_field := false },
    { name := "background_info", required := false, type := "Text",
      input_format := "Free-form text for notes about the contact",
      is_custom_field := false },
    { name := "birthday", required := false, type := "Date",
      input_format := "YYYY-MM-DD for full date, or 0000-MM-DD for annual (no year)",
      is_custom_field := false,
      notes := some "Use 0000 as year for recurring annual dates" } ]

/-- One entry of the `Options` array of a custom-field definition: either a
plain string or a structured record with optional `Value`, `Name` and
`OptionId` keys. -/
inductive CFOption where
  | strOpt (value : String)
  | objOpt (Value : Option String) (Name : Option String) (OptionId : Option String)
deriving DecidableEq

/-- A remote custom-field definition (`CustomFieldDetail`).  The source
key `Type` is rendered `type` here because `Type` is reserved in Lean. -/
structure CustomFieldDetail where
  CustomFieldId : String
  Name : String
  type : String
  RecordType : Option String := none
  PipelineId : Option String := none
  IsRequired : Option Bool := none
  IsArchived : Option Bool := none
  Options : Option (List CFOption) := none
  Description : Option String := none
deriving DecidableEq

/-- AI-friendly formatted custom field (`FormattedCustomField`). -/
structure FormattedCustomField where
  name : String
  field_id : String
  type : String
  required : Bool
  input_format : String
  valid_options : Option (List String) := none
  record_type : Option String := none
  pipeline_id : Option String := none
deriving DecidableEq

/-- JavaScript truthiness of an optional string (absent and empty are
falsy). -/
def jsTruthyStr : Option String → Bool
  | some s => !(s == "")
  | none => false

/-- JavaScript `a || b` on an optional string against a fallback. -/
def jsOrElse (a : Option String) (b : String) : String :=
  match a with
  | some s => if s = "" then b else s
  | none => b

/-- Flattening of one option entry:
`typeof opt === 'string' ? opt : (opt.Value || opt.Name || String(opt))`.
String coercion of a plain object yields `[object Object]`. -/
def flattenOption : CFOption → String
  | .strOpt s => s
  | .objOpt v n _ => jsOrElse v (jsOrElse n "[object Object]")

/-- The fixed lookup table of `getInputFormatDescription`
(lines 289-307). -/
def INPUT_FORMATS : List (String × String) :=
  [ ("Text", "String value (single line)"),
    ("TextArea", "String value (can be multi-line)"),
    ("Number", "Numeric value (integer or decimal)"),
    ("Currency", "Numeric value (will be formatted as currency)"),
    ("Date", "Date string in YYYY-MM-DD format"),
    ("Dropdown", "Exactly one of the valid options (case-sensitive)"),
    ("RadioList", "Exactly one of the valid options (case-sensitive)"),
    ("Checkbox", "Array of selected options, e.g. [\"Option1\", \"Option2\"]"),
    ("ContactLink", "ContactId of the linked contact"),
    ("FileLink", "FileId of the linked file"),
    ("Signature", "Signature data (typically from form submission)"),
    ("Section", "Container field - not directly editable"),
    ("SectionHeader", "Display field - not directly editable"),
    ("TextBlock", "Display field - not directly editable") ]

/-- `getInputFormatDescription`: table lookup with the
`'String value'` fallback. -/
def getInputFormatDescription (type : String) : String :=
  (INPUT_FORMATS.lookup type).getD "String value"

/-- The choice field types whose options the specification says populate
`validOptions`.  (Stated from the specification for comparison; the code
itself does not consult the field type when populating `valid_options`.) -/
def isChoiceType (type : String) : Bool :=
  type == "Dropdown" || type == "RadioList" || type == "Checkbox"

/-- `formatCustomFieldForAI` (lines 312-336): translation of one remote
custom-field definition, with `valid_options` populated exactly when the
source `Options` array is present and nonempty, and `record_type` /
`pipeline_id` copied when truthy. -/
def formatCustomFieldForAI (field : CustomFieldDetail) : FormattedCustomField :=
  { name := field.Name
    field_id := field.CustomFieldId
    type := field.type
    required := field.IsRequired.getD false
    input_format := getInputFormatDescription field.type
    valid_options :=
      match field.Options with
      | some opts => if opts.length > 0 then some (opts.map flattenOption) else none
      | none => none
    record_type := if jsTruthyStr field.RecordType then field.RecordType else none
    pipeline_id := if jsTruthyStr field.PipelineId then field.PipelineId else none }

/-- What a tool handler does when invoked: fail locally with a validation
error, or issue one API client call. -/
inductive HandlerAction where
  | localValidationError (message : String)
  | networkCall (functionName : String) (parameters : List (String × Json))

/-- The `record_type` enum of the `get_custom_fields` input schema. -/
inductive RecordTypeArg where
  | Contact
  | Company
  | Pipeline
deriving DecidableEq

/-- Wire string of a `record_type` enum value. -/
def recordTypeWire : RecordTypeArg → String
  | .Contact => "Contact"
  | .Company => "Company"
  | .Pipeline => "Pipeline"

/-- Arguments of the `get_custom_fields` tool; all three are optional in
the zod input schema. -/
structure GetCustomFieldsArgs where
  record_type : Option RecordTypeArg := none
  pipeline_id : Option String := none
  include_archived : Option Bool := none

/-- Parameter assembly of the `get_custom_fields` handler
(lines 460-469):  each argument is copied into the wire parameter map only
when truthy, and the handler then issues `GetCustomFields` directly — it
performs no local validation of any kind. -/
def getCustomFieldsAction (args : GetCustomFieldsArgs) : HandlerAction :=
  let p0 : List (String × Json) := []
  let p1 := match args.record_type with
    | some rt => p0 ++ [("RecordType", Json.str (recordTypeWire rt))]
    | none => p0
  let p2 := match args.pipeline_id with
    | some pid => if pid ≠ "" then p1 ++ [("PipelineId", Json.str pid)] else p1
    | none => p1
  let p3 := match args.include_archived with
    | some b => if b then p2 ++ [("IncludeArchivedFields", Json.bool b)] else p2
    | none => p2
  .networkCall "GetCustomFields" p3

/-- The MCP SDK-level input gate of `get_pipeline_item_schema` and
`get_pipeline_custom_fields`: their zod input schemas declare
`pipeline_id: z.string()` (not optional), so an invocation without a
pipeline identifier is rejected before the handler body runs. -/
def getPipelineItemSchemaAccepted (pipeline_id : Option String) : Bool :=
  pipeline_id.isSome

/-- Result shape of the remote `GetCustomFields` call as handled by the
schema tools: a bare array or a paginated object with an optional
`Results` array. -/
inductive GetCustomFieldsResult where
  | arrayResult (fields : List CustomFieldDetail)
  | objectResult (Results : Option (List CustomFieldDetail))

/-- `Array.isArray(result) ? result : (result.Results || [])`. -/
def extractFields : GetCustomFieldsResult → List CustomFieldDetail
  | .arrayResult l => l
  | .objectResult r => r.getD []

/-- The call issued by the `get_contact_schema` handler (lines 758-761). -/
def getContactSchemaCall : HandlerAction :=
  .networkCall "GetCustomFields" [("RecordType", Json.str "Contact")]

/-- Custom-field translation inside `get_contact_schema` (lines 766-776):
like `formatCustomFieldForAI` but producing a `SchemaField`, with
`valid_options := field.Options?.map(...)` (present whenever `Options` is,
even when empty). -/
def contactCustomFieldSchema (field : CustomFieldDetail) : SchemaField :=
  { name := field.Name
    required := field.IsRequired.getD false
    type := field.type
    input_format := getInputFormatDescription field.type
    is_custom_field := true
    field_id := some field.CustomFieldId
    valid_options := field.Options.map (List.map flattenOption) }

/-- `allFields` of `get_contact_schema` (line 779): the fixed-field table
concatenated with one translated descriptor per remote custom field; no
deduplication. -/
def getContactSchemaFields (result : GetCustomFieldsResult) : List SchemaField :=
  CONTACT_FIXED_FIELDS ++ (extractFields result).map contactCustomFieldSchema

/-- The `summary` object of the `get_contact_schema` output
(lines 784-789). -/
structure ContactSchemaSummary where
  total_fields : Nat
  required_count : Nat
  fixed_fields : Nat
  custom_fields : Nat
deriving DecidableEq

/-- The output of `get_contact_schema` (lines 782-793); the
presentation-only `usage_example` string is not modelled. -/
structure ContactSchemaOutput where
  summary : ContactSchemaSummary
  required_fields : List SchemaField
  optional_fields : List SchemaField
deriving DecidableEq

/-- The `get_contact_schema` composition (lines 753-793). -/
def getContactSchemaOutput (result : GetCustomFieldsResult) : ContactSchemaOutput :=
  let allFields := getContactSchemaFields result
  let requiredFields := allFields.filter (·.required)
  { summary :=
      { total_fields := allFields.length
        required_count := requiredFields.length
        fixed_fields := CONTACT_FIXED_FIELDS.length
        custom_fields := (extractFields result).length }
    required_fields := requiredFields
    optional_fields := allFields.filter (fun f => !f.required) }

/-! ## Theorems -/

/-- C5: for status 401 and for status 403, every response — whatever its
body, including a well-formed success-shaped body and an unparseable body —
is classified as `AuthenticationError`, independently of the body (the code
throws before reading it). -/
theorem classify_auth_short_circuit (statusText : String) (body : Option Json) :
    classify ⟨401, statusText, body⟩ = .authError AUTH_DEFAULT_MESSAGE ∧
    classify ⟨403, statusText, body⟩ = .authError AUTH_DEFAULT_MESSAGE :=
  ⟨rfl, rfl⟩

/-- C2: a 2xx response whose parsed body is an object containing an
`ErrorCode` key is classified as an `ApiError` carrying the body's
`ErrorCode` and `ErrorDescription` values, and is never a success result. -/
theorem classify_2xx_error_body (status : Nat) (statusText : String)
    (members : List (String × Json))
    (h2 : 200 ≤ status) (h3 : status ≤ 299)
    (hkey : hasKey "ErrorCode" members = true) :
    classify ⟨status, statusText, some (.obj members)⟩ =
      .apiError (jsLookup "ErrorCode" members) (jsLookup "ErrorDescription" members) ∧
    ∀ data, classify ⟨status, statusText, some (.obj members)⟩ ≠ .success data := by
  have hok : responseOk status = true := by
    simp only [responseOk, Bool.and_eq_true, decide_eq_true_eq]
    omega
  constructor
  · simp [classify, hok, Json.isErrorObject, hkey, Json.getKey]
  · intro data
    simp [classify, hok, Json.isErrorObject, hkey, Json.getKey]

/-- Witness for C2 at status 200 with body
`\x7b"ErrorCode":"X","ErrorDescription":"Y"\x7d`. -/
theorem classify_2xx_error_body_witness :
    (200 ≤ 200 ∧ (200 : Nat) ≤ 299 ∧
      hasKey "ErrorCode" [("ErrorCode", Json.str "X"), ("ErrorDescription", Json.str "Y")]
        = true) ∧
    classify ⟨200, "OK",
        some (.obj [("ErrorCode", Json.str "X"), ("ErrorDescription", Json.str "Y")])⟩ =
      .apiError (some (Json.str "X")) (some (Json.str "Y")) := by
  refine ⟨⟨le_rfl, by decide, rfl⟩, ?_⟩
  exact (classify_2xx_error_body 200 "OK"
    [("ErrorCode", Json.str "X"), ("ErrorDescription", Json.str "Y")]
    (by decide) (by decide) rfl).1

/-- C7: a 2xx response whose parsed body is not an object containing an
`ErrorCode` key is returned as the success payload unchanged, with no
unwrapping. -/
theorem classify_2xx_passthrough (status : Nat) (statusText : String) (data : Json)
    (h2 : 200 ≤ status) (h3 : status ≤ 299)
    (hne : data.isErrorObject = false) :
    classify ⟨status, statusText, some data⟩ = .success data := by
  have hok : responseOk status = true := by
    simp only [responseOk, Bool.and_eq_true, decide_eq_true_eq]
    omega
  simp [classify, hok, hne]

/-- Witness for C7 at HTTP 200 with body `[\x7b"ContactId":"1"\x7d]`. -/
theorem classify_2xx_passthrough_witness :
    ((Json.arr [Json.obj [("ContactId", Json.str "1")]]).isErrorObject = false) ∧
    classify ⟨200, "OK", some (.arr [.obj [("ContactId", Json.str "1")]])⟩ =
      .success (.arr [.obj [("ContactId", Json.str "1")]]) :=
  ⟨rfl, classify_2xx_passthrough 200 "OK" _ (by decide) (by decide) rfl⟩

/-- C6 (amended): for a status neither 2xx nor 401/403 — an unparseable
body yields the generic `ApiError` with code `HTTP_<status>` and
description `HTTP error: <status> <statusText>`; a parsed body with an
`ErrorCode` field yields an `ApiError` carrying that code and its
`ErrorDescription`; a parsed body without an `ErrorCode` field yields the
same generic `ApiError`. -/
theorem classify_non2xx_error_classification (status : Nat) (statusText : String)
    (hok : responseOk status = false) (h401 : status ≠ 401) (h403 : status ≠ 403) :
    (classify ⟨status, statusText, none⟩ =
      .apiError (some (.str ("HTTP_" ++ natStr status)))
        (some (.str ("HTTP error: " ++ natStr status ++ " " ++ statusText)))) ∧
    (∀ members, hasKey "ErrorCode" members = true →
      classify ⟨status, statusText, some (.obj members)⟩ =
        .apiError (jsLookup "ErrorCode" members) (jsLookup "ErrorDescription" members)) ∧
    (∀ data, data.isErrorObject = false →
      classify ⟨status, statusText, some data⟩ =
        .apiError (some (.str ("HTTP_" ++ natStr status)))
          (some (.str ("HTTP error: " ++ natStr status ++ " " ++ statusText)))) := by
  refine ⟨?_, ?_, ?_⟩
  · simp [classify, hok, h401, h403, genericHttpError]
  · intro members hkey
    simp [classify, hok, h401, h403, Json.isErrorObject, hkey, Json.getKey]
  · intro data hne
    simp [classify, hok, h401, h403, hne, genericHttpError]

/-- Witness for C6 (amended) at status 404 with an unparseable body. -/
theorem classify_non2xx_error_classification_witness :
    (responseOk 404 = false ∧ (404 : Nat) ≠ 401 ∧ (404 : Nat) ≠ 403) ∧
    classify ⟨404, "Not Found", none⟩ =
      .apiError (some (.str "HTTP_404")) (some (.str "HTTP error: 404 Not Found")) := by
  refine ⟨⟨rfl, by decide, by decide⟩, ?_⟩
  exact (classify_non2xx_error_classification 404 "Not Found" rfl
    (by decide) (by decide)).1

/-- C6 (counterexample): at status 404 with status text `Not Found` the
generic error's description is `HTTP error: 404 Not Found`, which is not
the status text itself. -/
theorem classify_http404_description_not_status_text :
    classify ⟨404, "Not Found", none⟩ =
      .apiError (some (.str "HTTP_404")) (some (.str "HTTP error: 404 Not Found")) ∧
    ("HTTP error: 404 Not Found" : String) ≠ "Not Found" := by
  exact ⟨rfl, by decide⟩

/-- C1: the effect sequences of `call` and `callWithFile` contain an HTTP
dispatch but no rate-limiter acquisition, for every API key, function name,
parameter map and file — the client dispatches immediately, unconditionally
on any rate-limit state. -/
theorem call_dispatches_without_rate_limiter
    (apiKey functionName : String) (parameters : List (String × Json))
    (file : UploadFile) :
    ClientEffect.acquireRateLimitSlot ∉ callEffects apiKey functionName parameters ∧
    ClientEffect.acquireRateLimitSlot ∉
      callWithFileEffects apiKey functionName parameters file ∧
    (∃ request, ClientEffect.httpDispatch request ∈
      callEffects apiKey functionName parameters) ∧
    (∃ request, ClientEffect.httpDispatch request ∈
      callWithFileEffects apiKey functionName parameters file) := by
  refine ⟨?_, ?_, ⟨callRequest apiKey functionName parameters, ?_⟩,
    ⟨callWithFileRequest apiKey functionName parameters file, ?_⟩⟩ <;>
    simp [callEffects, callWithFileEffects]

/-- C3: invoking `get_custom_fields` with `record_type = "Pipeline"` and no
`pipeline_id` issues the `GetCustomFields` network call with the pipeline
filter silently omitted, raising no local validation error (by contrast,
the `get_pipeline_item_schema` input gate rejects a missing
`pipeline_id`). -/
theorem get_custom_fields_pipeline_without_id_calls_network :
    getCustomFieldsAction ⟨some .Pipeline, none, none⟩ =
      .networkCall "GetCustomFields" [("RecordType", Json.str "Pipeline")] ∧
    (∀ message, getCustomFieldsAction ⟨some .Pipeline, none, none⟩ ≠
      .localValidationError message) ∧
    hasKey "PipelineId" [("RecordType", Json.str "Pipeline")] = false ∧
    getPipelineItemSchemaAccepted none = false := by
  refine ⟨rfl, ?_, rfl, rfl⟩
  intro message h
  simp [getCustomFieldsAction] at h

/-- C10: for any two credentials and a fixed transport response, `call` and
`callWithFile` classify to identical results and identical formatted error
messages; the two requests differ only in the value of the `Authorization`
header (same URL, method and body), that header being the only place the
credential occurs; and the `AuthenticationError` thrown on 401/403 carries
the fixed default message. -/
theorem call_outcome_credential_noninterference
    (apiKey1 apiKey2 functionName : String) (parameters : List (String × Json))
    (file : UploadFile) (response : HttpResponse)
    (statusText : String) (body : Option Json) :
    ((callRun apiKey1 functionName parameters response).2
      = (callRun apiKey2 functionName parameters response).2) ∧
    ((callWithFileRun apiKey1 functionName parameters file response).2
      = (callWithFileRun apiKey2 functionName parameters file response).2) ∧
    (Option.map formatErrorForLLM
        (thrownOfResult (callRun apiKey1 functionName parameters response).2)
      = Option.map formatErrorForLLM
        (thrownOfResult (callRun apiKey2 functionName parameters response).2)) ∧
    ((callRequest apiKey1 functionName parameters).url
      = (callRequest apiKey2 functionName parameters).url) ∧
    ((callRequest apiKey1 functionName parameters).method
      = (callRequest apiKey2 functionName parameters).method) ∧
    ((callRequest apiKey1 functionName parameters).body
      = (callRequest apiKey2 functionName parameters).body) ∧
    ((callRequest apiKey1 functionName parameters).headers
      = [("Content-Type", "application/json"), ("Authorization", apiKey1)]) ∧
    ((callWithFileRequest apiKey1 functionName parameters file).body
      = (callWithFileRequest apiKey2 functionName parameters file).body) ∧
    ((callWithFileRequest apiKey1 functionName parameters file).headers
      = [("Authorization", apiKey1)]) ∧
    (classify ⟨401, statusText, body⟩ = .authError AUTH_DEFAULT_MESSAGE) ∧
    (classify ⟨403, statusText, body⟩ = .authError AUTH_DEFAULT_MESSAGE) :=
  ⟨rfl, rfl, rfl, rfl, rfl, rfl, rfl, rfl, rfl, rfl, rfl⟩

/-- Auxiliary: a translated custom-field descriptor is marked required
exactly when the source `IsRequired` flag is `true`, so filtering the
translated list by `required` counts the source fields with the flag
set. -/
theorem filter_required_map_length (cfs : List CustomFieldDetail) :
    ((cfs.map contactCustomFieldSchema).filter (·.required)).length
      = (cfs.filter (fun c => c.IsRequired == some true)).length := by
  induction cfs with
  | nil => rfl
  | cons c cs ih =>
    cases h : c.IsRequired with
    | none => simp [List.filter_cons, contactCustomFieldSchema, h, ih]
    | some b => cases b <;> simp [List.filter_cons, contactCustomFieldSchema, h, ih]

/-- C4: `get_contact_schema` composes exactly the fixed-field table
followed by one translated descriptor per remote custom field (no
deduplication, every fixed entry present, lengths additive), and the
reported required count equals the number of fixed entries with
`required = true` (which is 2) plus the number of remote custom fields
whose `IsRequired` flag was `true`. -/
theorem contact_schema_concat_and_required_count (result : GetCustomFieldsResult) :
    getContactSchemaFields result
      = CONTACT_FIXED_FIELDS ++ (extractFields result).map contactCustomFieldSchema ∧
    (getContactSchemaFields result).length
      = CONTACT_FIXED_FIELDS.length + (extractFields result).length ∧
    (∀ f ∈ CONTACT_FIXED_FIELDS, f ∈ getContactSchemaFields result) ∧
    (getContactSchemaOutput result).summary.required_count
      = (CONTACT_FIXED_FIELDS.filter (·.required)).length
        + ((extractFields result).filter (fun c => c.IsRequired == some true)).length ∧
    (CONTACT_FIXED_FIELDS.filter (·.required)).length = 2 ∧
    (getContactSchemaOutput result).summary.total_fields
      = (getContactSchemaOutput result).summary.fixed_fields
        + (getContactSchemaOutput result).summary.custom_fields := by
  refine ⟨rfl, ?_, ?_, ?_, rfl, ?_⟩
  · simp [getContactSchemaFields]
  · intro f hf
    exact List.mem_append_left _ hf
  · show ((getContactSchemaFields result).filter (·.required)).length = _
    rw [getContactSchemaFields, List.filter_append, List.length_append,
      filter_required_map_length]
  · simp [getContactSchemaOutput, getContactSchemaFields]

/-- C9 (counterexample): a non-choice field (`Type = "Text"`) whose
definition carries a nonempty `Options` array is translated with
`valid_options` populated — the code gates on `Options`, not on the field
type. -/
theorem nonchoice_field_with_options_gets_valid_options :
    isChoiceType "Text" = false ∧
    (formatCustomFieldForAI
      { CustomFieldId := "cf1", Name := "Notes", type := "Text",
        Options := some [CFOption.strOpt "a"] }).valid_options = some ["a"] :=
  ⟨rfl, rfl⟩

/-- C9 (amended): `formatCustomFieldForAI` populates `valid_options`
exactly when the source field carries a nonempty `Options` array,
regardless of the declared field type; each option is flattened to a plain
string — a string option stays itself, a structured record contributes its
`Value` when truthy, else its `Name` when truthy, else the object
coercion. -/
theorem valid_options_from_nonempty_options (field : CustomFieldDetail) :
    ((formatCustomFieldForAI field).valid_options.isSome
        ↔ ∃ opts, field.Options = some opts ∧ opts ≠ []) ∧
    (∀ opts, field.Options = some opts → opts ≠ [] →
      (formatCustomFieldForAI field).valid_options = some (opts.map flattenOption)) ∧
    (∀ s, flattenOption (.strOpt s) = s) ∧
    (∀ v n oid, v ≠ "" → flattenOption (.objOpt (some v) n oid) = v) ∧
    (∀ n oid, n ≠ "" → flattenOption (.objOpt none (some n) oid) = n) ∧
    (∀ oid, flattenOption (.objOpt none none oid) = "[object Object]") := by
  refine ⟨?_, ?_, fun s => rfl, ?_, ?_, fun oid => rfl⟩
  · cases h : field.Options with
    | none => simp [formatCustomFieldForAI, h]
    | some opts =>
      cases opts with
      | nil => simp [formatCustomFieldForAI, h]
      | cons o os => simp [formatCustomFieldForAI, h]
  · intro opts h hne
    have hlen : 0 < opts.length := List.length_pos.mpr hne
    simp [formatCustomFieldForAI, h, hlen]
  · intro v n oid hv
    simp [flattenOption, jsOrElse, hv]
  · intro n oid hn
    simp [flattenOption, jsOrElse, hn]

/-- Witness for C9 (amended) at a `Dropdown` field with one structured and
one plain option. -/
theorem valid_options_from_nonempty_options_witness :
    (formatCustomFieldForAI
      { CustomFieldId := "cf9", Name := "Stage", type := "Dropdown",
        Options := some [CFOption.objOpt (some "Red") none none,
          CFOption.strOpt "Blue"] }).valid_options = some ["Red", "Blue"] := by
  have h := (valid_options_from_nonempty_options
    { CustomFieldId := "cf9", Name := "Stage", type := "Dropdown",
      Options := some [CFOption.objOpt (some "Red") none none,
        CFOption.strOpt "Blue"] }).2.1
    [CFOption.objOpt (some "Red") none none, CFOption.strOpt "Blue"] rfl (by simp)
  simpa [flattenOption, jsOrElse] using h

/-! ### Round-trip of the JSON serializer and parser -/

theorem natCharsRevFuel_zero (fuel : Nat) : natCharsRevFuel fuel 0 = [] := by
  cases fuel <;> rfl

theorem natCharsRevFuel_mono : ∀ f1 f2 n, n ≤ f1 → n ≤ f2 →
    natCharsRevFuel f1 n = natCharsRevFuel f2 n := by
  intro f1
  induction f1 with
  | zero =>
    intro f2 n h1 _
    have : n = 0 := by omega
    subst this
    rw [natCharsRevFuel_zero, natCharsRevFuel_zero]
  | succ f ih =>
    intro f2 n h1 h2
    by_cases hn : n = 0
    · subst hn
      rw [natCharsRevFuel_zero, natCharsRevFuel_zero]
    · obtain ⟨f2p, rfl⟩ : ∃ m, f2 = m + 1 := ⟨f2 - 1, by omega⟩
      simp only [natCharsRevFuel, hn, if_false]
      rw [ih f2p (n / 10) (by omega) (by omega)]

theorem natCharsRev_eq (n : Nat) (hn : n ≠ 0) :
    natCharsRev n = digitChar (n % 10) :: natCharsRev (n / 10) := by
  show natCharsRevFuel n n = _
  obtain ⟨m, rfl⟩ : ∃ m, n = m + 1 := ⟨n - 1, by omega⟩
  simp only [natCharsRevFuel, hn, if_false]
  rw [natCharsRevFuel_mono m ((m + 1) / 10) ((m + 1) / 10) (by omega) (by omega)]
  rfl

theorem isDigit_digitChar (d : Nat) (h : d < 10) : isDigitChar (digitChar d) = true := by
  interval_cases d <;> decide

theorem digitVal_digitChar (d : Nat) (h : d < 10) : digitVal (digitChar d) = d := by
  interval_cases d <;> decide

theorem natCharsRev_all_digits : ∀ n, ∀ c ∈ natCharsRev n, isDigitChar c = true := by
  intro n
  induction n using Nat.strong_induction_on with
  | _ n ih =>
    intro c hc
    by_cases hn : n = 0
    · subst hn
      simp [natCharsRev, natCharsRevFuel] at hc
    · rw [natCharsRev_eq n hn] at hc
      rcases List.mem_cons.mp hc with h | h
      · subst h
        exact isDigit_digitChar _ (Nat.mod_lt _ (by omega))
      · exact ih (n / 10) (Nat.div_lt_self (by omega) (by omega)) c h

theorem natChars_all_digits (n : Nat) : ∀ c ∈ natChars n, isDigitChar c = true := by
  intro c hc
  unfold natChars at hc
  split at hc
  · simp at hc
    subst hc
    decide
  · exact natCharsRev_all_digits n c (List.mem_reverse.mp hc)

theorem natChars_ne_nil (n : Nat) : natChars n ≠ [] := by
  unfold natChars
  split
  · simp
  · intro h
    rw [List.reverse_eq_nil_iff] at h
    rw [natCharsRev_eq n (by assumption)] at h
    simp at h

theorem parseDigits_append : ∀ (ds rest : List Char) (acc : Nat),
    (∀ c ∈ ds, isDigitChar c = true) → noDigitHead rest = true →
    parseDigits (ds ++ rest) acc
      = (ds.foldl (fun a c => a * 10 + digitVal c) acc, rest) := by
  intro ds
  induction ds with
  | nil =>
    intro rest acc _ hrest
    cases rest with
    | nil => rfl
    | cons c r =>
      have hc : isDigitChar c = false := by
        simpa [noDigitHead] using hrest
      simp [parseDigits, hc]
  | cons d ds ih =>
    intro rest acc hds hrest
    have hd : isDigitChar d = true := hds d (by simp)
    simp only [List.cons_append, parseDigits, hd, if_true, List.foldl_cons]
    exact ih rest _ (fun c hc => hds c (by simp [hc])) hrest

theorem foldl_digits_reverse : ∀ (n : Nat) (acc : Nat),
    ((natCharsRev n).reverse).foldl (fun a c => a * 10 + digitVal c) acc
      = acc * 10 ^ (natCharsRev n).length + n := by
  intro n
  induction n using Nat.strong_induction_on with
  | _ n ih =>
    intro acc
    by_cases hn : n = 0
    · subst hn
      show ((natCharsRevFuel 0 0).reverse).foldl _ acc = acc * 10 ^ (natCharsRevFuel 0 0).length + 0
      simp [natCharsRevFuel]
    · rw [natCharsRev_eq n hn, List.reverse_cons, List.foldl_append,
        ih (n / 10) (Nat.div_lt_self (by omega) (by omega)) acc]
      simp only [List.foldl_cons, List.foldl_nil, List.length_cons]
      rw [digitVal_digitChar _ (Nat.mod_lt _ (by omega)), pow_succ, ← Nat.mul_assoc]
      have key : ∀ A : Nat, (A + n / 10) * 10 + n % 10 = A * 10 + n := by
        intro A
        omega
      exact key _

theorem foldl_natChars (n : Nat) :
    (natChars n).foldl (fun a c => a * 10 + digitVal c) 0 = n := by
  unfold natChars
  split
  · rename_i h
    subst h
    decide
  · rw [foldl_digits_reverse]
    simp

theorem parseDigits_natChars (n : Nat) (rest : List Char)
    (hrest : noDigitHead rest = true) :
    ∃ c cs, natChars n = c :: cs ∧ isDigitChar c = true ∧
      parseDigits (cs ++ rest) (digitVal c) = (n, rest) := by
  obtain ⟨c, cs, hcons⟩ : ∃ c cs, natChars n = c :: cs := by
    cases h : natChars n with
    | nil => exact absurd h (natChars_ne_nil n)
    | cons c cs => exact ⟨c, cs, rfl⟩
  refine ⟨c, cs, hcons, natChars_all_digits n c (by rw [hcons]; simp), ?_⟩
  have hds : ∀ x ∈ cs, isDigitChar x = true := fun x hx =>
    natChars_all_digits n x (by rw [hcons]; simp [hx])
  rw [parseDigits_append cs rest _ hds hrest]
  have hv : (c :: cs).foldl (fun a c => a * 10 + digitVal c) 0 = n := by
    rw [← hcons]
    exact foldl_natChars n
  simp only [List.foldl_cons, Nat.zero_mul, Nat.zero_add] at hv
  rw [hv]

theorem hexVal_hexDigitChar (d : Nat) (h : d < 16) : hexVal (hexDigitChar d) = some d := by
  interval_cases d <;> decide

theorem string_mk_data (s : String) : String.mk s.data = s := rfl

theorem parseStrBody_escape : ∀ (s rest : List Char),
    parseStrBody (escapeChars s ++ '"' :: rest) = some (s, rest) := by
  intro s
  induction s with
  | nil =>
    intro rest
    rw [show escapeChars [] = ([] : List Char) from rfl, List.nil_append,
      parseStrBody.eq_def]
    simp
  | cons c cs ih =>
    intro rest
    show parseStrBody ((escapeChar c ++ escapeChars cs) ++ '"' :: rest) = _
    rw [List.append_assoc]
    by_cases h1 : c = '"'
    · subst h1
      rw [show escapeChar '"' = ['\\', '"'] by decide, parseStrBody.eq_def]
      simp [unescape, ih]
    by_cases h2 : c = '\\'
    · subst h2
      rw [show escapeChar '\\' = ['\\', '\\'] by decide, parseStrBody.eq_def]
      simp [unescape, ih]
    by_cases h3 : c = Char.ofNat 8
    · subst h3
      rw [show escapeChar (Char.ofNat 8) = ['\\', 'b'] by decide, parseStrBody.eq_def]
      simp [unescape, ih]
    by_cases h4 : c = '\t'
    · subst h4
      rw [show escapeChar '\t' = ['\\', 't'] by decide, parseStrBody.eq_def]
      simp [unescape, ih]
    by_cases h5 : c = '\n'
    · subst h5
      rw [show escapeChar '\n' = ['\\', 'n'] by decide, parseStrBody.eq_def]
      simp [unescape, ih]
    by_cases h6 : c = Char.ofNat 12
    · subst h6
      rw [show escapeChar (Char.ofNat 12) = ['\\', 'f'] by decide, parseStrBody.eq_def]
      simp [unescape, ih]
    by_cases h7 : c = '\r'
    · subst h7
      rw [show escapeChar '\r' = ['\\', 'r'] by decide, parseStrBody.eq_def]
      simp [unescape, ih]
    by_cases h8 : c.toNat < 32
    · have hdiv : hexVal (hexDigitChar (c.toNat / 16)) = some (c.toNat / 16) :=
        hexVal_hexDigitChar _ (by omega)
      have hmod : hexVal (hexDigitChar (c.toNat % 16)) = some (c.toNat % 16) :=
        hexVal_hexDigitChar _ (by omega)
      have h0 : hexVal '0' = some 0 := by decide
      have hchar : Char.ofNat (c.toNat / 16 * 16 + c.toNat % 16) = c := by
        rw [show c.toNat / 16 * 16 + c.toNat % 16 = c.toNat by omega, Char.ofNat_toNat]
      have he : escapeChar c
          = ['\\', 'u', '0', '0', hexDigitChar (c.toNat / 16), hexDigitChar (c.toNat % 16)] := by
        simp [escapeChar, h1, h2, h3, h4, h5, h6, h7, h8]
      rw [he, parseStrBody.eq_def]
      simp [h0, hdiv, hmod, ih, hchar]
    · have he : escapeChar c = [c] := by
        simp [escapeChar, h1, h2, h3, h4, h5, h6, h7, h8]
      rw [he, parseStrBody.eq_def]
      simp [h1, h2, ih]

theorem serJson_length_pos (v : Json) : 0 < (serJson v).length := by
  cases v with
  | null => simp [serJson]
  | bool b => cases b <;> simp [serJson]
  | num n =>
    by_cases hneg : n < 0
    · simp [serJson, intChars, hneg]
    · have := natChars_ne_nil n.toNat
      simp [serJson, intChars, hneg, List.length_pos, this]
  | str s => simp [serJson, serStr]
  | arr elems => cases elems <;> simp [serJson]
  | obj members => cases members <;> simp [serJson]

theorem serJson_head_not_rbracket (v : Json) :
    ∃ c cs, serJson v = c :: cs ∧ c ≠ ']' := by
  cases v with
  | null => exact ⟨'n', ['u', 'l', 'l'], by simp [serJson], by decide⟩
  | bool b =>
    cases b
    · exact ⟨'f', ['a', 'l', 's', 'e'], by simp [serJson], by decide⟩
    · exact ⟨'t', ['r', 'u', 'e'], by simp [serJson], by decide⟩
  | num n =>
    by_cases hneg : n < 0
    · exact ⟨'-', natChars n.natAbs, by simp [serJson, intChars, hneg], by decide⟩
    · obtain ⟨c, cs, hc⟩ : ∃ c cs, natChars n.toNat = c :: cs := by
        cases h : natChars n.toNat with
        | nil => exact absurd h (natChars_ne_nil _)
        | cons c cs => exact ⟨c, cs, rfl⟩
      refine ⟨c, cs, by simp [serJson, intChars, hneg, hc], ?_⟩
      have hdig : isDigitChar c = true :=
        natChars_all_digits n.toNat c (by rw [hc]; simp)
      intro h
      subst h
      exact absurd hdig (by decide)
  | str s => exact ⟨'"', escapeChars s.data ++ ['"'], by simp [serJson, serStr], by decide⟩
  | arr elems =>
    cases elems with
    | nil => exact ⟨'[', [']'], by simp [serJson], by decide⟩
    | cons w ws => exact ⟨'[', serElems w ws, by simp [serJson], by decide⟩
  | obj members =>
    cases members with
    | nil => exact ⟨'\x7b', ['\x7d'], by simp [serJson], by decide⟩
    | cons m ms => exact ⟨'\x7b', serMembers m ms, by simp [serJson], by decide⟩

theorem serElems_head (v : Json) (vs : List Json) :
    ∃ c tl, serElems v vs = c :: tl ∧ c ≠ ']' := by
  obtain ⟨c, cs, hc, hne⟩ := serJson_head_not_rbracket v
  cases vs with
  | nil => exact ⟨c, cs ++ [']'], by simp [serElems, hc], hne⟩
  | cons w ws => exact ⟨c, cs ++ ',' :: serElems w ws, by simp [serElems, hc], hne⟩

theorem serMembers_head (m : String × Json) (ms : List (String × Json)) :
    ∃ tl, serMembers m ms = '"' :: tl := by
  obtain ⟨k, v⟩ := m
  cases ms with
  | nil =>
    exact ⟨escapeChars k.data ++ '"' :: ':' :: (serJson v ++ ['\x7d']),
      by simp [serMembers, serStr]⟩
  | cons m2 ms2 =>
    exact ⟨escapeChars k.data ++ '"' :: ':' :: (serJson v ++ ',' :: serMembers m2 ms2),
      by simp [serMembers, serStr]⟩

theorem serElems_length_elem_lt : ∀ (vs : List Json) (v e : Json), e ∈ v :: vs →
    (serJson e).length < (serElems v vs).length := by
  intro vs
  induction vs with
  | nil =>
    intro v e he
    have : e = v := by simpa using he
    subst this
    simp [serElems]
  | cons w ws ih =>
    intro v e he
    rcases List.mem_cons.mp he with h | h
    · subst h
      simp [serElems]
      try omega
    · calc (serJson e).length < (serElems w ws).length := ih w e h
        _ < (serElems v (w :: ws)).length := by
            simp [serElems]
            try omega

theorem serMembers_length_value_lt : ∀ (ms : List (String × Json))
    (m p : String × Json), p ∈ m :: ms →
    (serJson p.2).length < (serMembers m ms).length := by
  intro ms
  induction ms with
  | nil =>
    intro m p hp
    have : p = m := by simpa using hp
    subst this
    obtain ⟨k, v⟩ := p
    simp [serMembers]
    try omega
  | cons m2 ms2 ih =>
    intro m p hp
    obtain ⟨k, v⟩ := m
    rcases List.mem_cons.mp hp with h | h
    · subst h
      simp [serMembers]
      try omega
    · calc (serJson p.2).length < (serMembers m2 ms2).length := ih m2 p h
        _ < (serMembers (k, v) (m2 :: ms2)).length := by
            simp [serMembers]
            try omega

theorem parseElems_ser : ∀ (vs : List Json) (v : Json),
    (∀ e ∈ v :: vs, ∀ fuel rest, (serJson e).length ≤ fuel → noDigitHead rest = true →
      parseVal fuel (serJson e ++ rest) = some (e, rest)) →
    ∀ fuel rest, (serElems v vs).length ≤ fuel →
    parseElems fuel (serElems v vs ++ rest) = some (v :: vs, rest) := by
  intro vs
  induction vs with
  | nil =>
    intro v He fuel rest hfuel
    have hlen : (serElems v []).length = (serJson v).length + 1 := by
      simp [serElems]
    obtain ⟨f, rfl⟩ : ∃ f, fuel = f + 1 := ⟨fuel - 1, by omega⟩
    have hval : parseVal f (serJson v ++ ']' :: rest) = some (v, ']' :: rest) :=
      He v (by simp) f (']' :: rest) (by omega) rfl
    have harr : serElems v [] ++ rest = serJson v ++ ']' :: rest := by
      simp [serElems]
    rw [harr, parseElems.eq_def]
    simp [hval]
  | cons w ws ih =>
    intro v He fuel rest hfuel
    have hlen : (serElems v (w :: ws)).length
        = (serJson v).length + 1 + (serElems w ws).length := by
      simp [serElems]
      omega
    have hvpos := serJson_length_pos v
    obtain ⟨f, rfl⟩ : ∃ f, fuel = f + 1 := ⟨fuel - 1, by omega⟩
    have hval : parseVal f (serJson v ++ ',' :: (serElems w ws ++ rest))
        = some (v, ',' :: (serElems w ws ++ rest)) :=
      He v (by simp) f _ (by omega) rfl
    have hrec : parseElems f (serElems w ws ++ rest) = some (w :: ws, rest) :=
      ih w (fun e he fuel2 rest2 h1 h2 => He e (List.mem_cons_of_mem v he) fuel2 rest2 h1 h2)
        f rest (by omega)
    have harr : serElems v (w :: ws) ++ rest
        = serJson v ++ ',' :: (serElems w ws ++ rest) := by
      simp [serElems]
    rw [harr, parseElems.eq_def]
    simp [hval, hrec]

theorem parseMembers_ser : ∀ (ms : List (String × Json)) (m : String × Json),
    (∀ p ∈ m :: ms, ∀ fuel rest, (serJson p.2).length ≤ fuel → noDigitHead rest = true →
      parseVal fuel (serJson p.2 ++ rest) = some (p.2, rest)) →
    ∀ fuel rest, (serMembers m ms).length ≤ fuel →
    parseMembers fuel (serMembers m ms ++ rest) = some (m :: ms, rest) := by
  intro ms
  induction ms with
  | nil =>
    intro m He fuel rest hfuel
    obtain ⟨k, v⟩ := m
    have hlen : (serMembers (k, v) []).length
        = (serStr k).length + 1 + (serJson v).length + 1 := by
      simp [serMembers]
      omega
    have hkpos : 0 < (serStr k).length := by simp [serStr]
    obtain ⟨f, rfl⟩ : ∃ f, fuel = f + 1 := ⟨fuel - 1, by omega⟩
    have hval : parseVal f (serJson v ++ '\x7d' :: rest) = some (v, '\x7d' :: rest) :=
      He (k, v) (by simp) f _ (by show (serJson v).length ≤ f; omega) rfl
    have harr : serMembers (k, v) [] ++ rest
        = '"' :: (escapeChars k.data ++ '"' :: (':' :: (serJson v ++ '\x7d' :: rest))) := by
      simp [serMembers, serStr]
    rw [harr, parseMembers.eq_def]
    simp [parseStrBody_escape, hval, string_mk_data]
  | cons m2 ms2 ih =>
    intro m He fuel rest hfuel
    obtain ⟨k, v⟩ := m
    have hlen : (serMembers (k, v) (m2 :: ms2)).length
        = (serStr k).length + 1 + (serJson v).length + 1 + (serMembers m2 ms2).length := by
      simp [serMembers]
      omega
    have hkpos : 0 < (serStr k).length := by simp [serStr]
    have hvpos := serJson_length_pos v
    obtain ⟨f, rfl⟩ : ∃ f, fuel = f + 1 := ⟨fuel - 1, by omega⟩
    have hval : parseVal f (serJson v ++ ',' :: (serMembers m2 ms2 ++ rest))
        = some (v, ',' :: (serMembers m2 ms2 ++ rest)) :=
      He (k, v) (by simp) f _ (by show (serJson v).length ≤ f; omega) rfl
    have hrec : parseMembers f (serMembers m2 ms2 ++ rest) = some (m2 :: ms2, rest) :=
      ih m2 (fun p hp fuel2 rest2 h1 h2 => He p (List.mem_cons_of_mem (k, v) hp) fuel2 rest2 h1 h2)
        f rest (by omega)
    have harr : serMembers (k, v) (m2 :: ms2) ++ rest
        = '"' :: (escapeChars k.data ++ '"'
            :: (':' :: (serJson v ++ ',' :: (serMembers m2 ms2 ++ rest)))) := by
      simp [serMembers, serStr]
    rw [harr, parseMembers.eq_def]
    simp [parseStrBody_escape, hval, hrec, string_mk_data]

theorem parseVal_ser : ∀ (v : Json) (fuel : Nat) (rest : List Char),
    (serJson v).length ≤ fuel → noDigitHead rest = true →
    parseVal fuel (serJson v ++ rest) = some (v, rest) := by
  suffices H : ∀ N v, (serJson v).length ≤ N → ∀ fuel rest,
      (serJson v).length ≤ fuel → noDigitHead rest = true →
      parseVal fuel (serJson v ++ rest) = some (v, rest) by
    exact fun v fuel rest h1 h2 => H (serJson v).length v le_rfl fuel rest h1 h2
  intro N
  induction N using Nat.strong_induction_on with
  | _ N IH =>
    intro v hN fuel rest hfuel hrest
    cases v with
    | null =>
      have hlen : (serJson Json.null).length = 4 := by simp [serJson]
      obtain ⟨f, rfl⟩ : ∃ f, fuel = f + 1 := ⟨fuel - 1, by omega⟩
      rw [show serJson Json.null ++ rest = 'n' :: 'u' :: 'l' :: 'l' :: rest by
        simp [serJson], parseVal.eq_def]
      simp [show isDigitChar 'n' = false by decide]
    | bool b =>
      cases b with
      | true =>
        have hlen : (serJson (Json.bool true)).length = 4 := by simp [serJson]
        obtain ⟨f, rfl⟩ : ∃ f, fuel = f + 1 := ⟨fuel - 1, by omega⟩
        rw [show serJson (Json.bool true) ++ rest = 't' :: 'r' :: 'u' :: 'e' :: rest by
          simp [serJson], parseVal.eq_def]
        simp [show isDigitChar 't' = false by decide]
      | false =>
        have hlen : (serJson (Json.bool false)).length = 5 := by simp [serJson]
        obtain ⟨f, rfl⟩ : ∃ f, fuel = f + 1 := ⟨fuel - 1, by omega⟩
        rw [show serJson (Json.bool false) ++ rest = 'f' :: 'a' :: 'l' :: 's' :: 'e' :: rest by
          simp [serJson], parseVal.eq_def]
        simp [show isDigitChar 'f' = false by decide]
    | str s =>
      have hpos := serJson_length_pos (Json.str s)
      obtain ⟨f, rfl⟩ : ∃ f, fuel = f + 1 := ⟨fuel - 1, by omega⟩
      rw [show serJson (Json.str s) ++ rest = '"' :: (escapeChars s.data ++ '"' :: rest) by
        simp [serJson, serStr], parseVal.eq_def]
      simp [show isDigitChar '"' = false by decide, parseStrBody_escape, string_mk_data]
    | num n =>
      by_cases hneg : n < 0
      · obtain ⟨m, rfl⟩ : ∃ m : Nat, n = -(m : Int) := ⟨n.natAbs, by omega⟩
        have hser : serJson (Json.num (-(m : Int))) = '-' :: natChars m := by
          simp [serJson, intChars, hneg]
        obtain ⟨c, cs, hcons, hdig, hpd⟩ := parseDigits_natChars m rest hrest
        obtain ⟨f, rfl⟩ : ∃ f, fuel = f + 1 :=
          ⟨fuel - 1, by rw [hser] at hfuel; simp at hfuel; omega⟩
        rw [show serJson (Json.num (-(m : Int))) ++ rest = '-' :: (c :: (cs ++ rest)) by
          rw [hser, hcons]; simp, parseVal.eq_def]
        simp [show isDigitChar '-' = false by decide, hdig, hpd]
      · obtain ⟨m, rfl⟩ : ∃ m : Nat, n = (m : Int) := ⟨n.toNat, by omega⟩
        have hser : serJson (Json.num (m : Int)) = natChars m := by
          simp [serJson, intChars, hneg]
        obtain ⟨c, cs, hcons, hdig, hpd⟩ := parseDigits_natChars m rest hrest
        have hnpos : 0 < (natChars m).length :=
          List.length_pos.mpr (natChars_ne_nil m)
        obtain ⟨f, rfl⟩ : ∃ f, fuel = f + 1 :=
          ⟨fuel - 1, by rw [hser] at hfuel; omega⟩
        rw [show serJson (Json.num (m : Int)) ++ rest = c :: (cs ++ rest) by
          rw [hser, hcons]; simp, parseVal.eq_def]
        simp [hdig, hpd]
    | arr elems =>
      cases elems with
      | nil =>
        have hlen : (serJson (Json.arr [])).length = 2 := by simp [serJson]
        obtain ⟨f, rfl⟩ : ∃ f, fuel = f + 1 := ⟨fuel - 1, by omega⟩
        rw [show serJson (Json.arr []) ++ rest = '[' :: ']' :: rest by
          simp [serJson], parseVal.eq_def]
        simp [show isDigitChar '[' = false by decide]
      | cons w ws =>
        have hser : serJson (Json.arr (w :: ws)) = '[' :: serElems w ws := by
          simp [serJson]
        have hlen : (serJson (Json.arr (w :: ws))).length
            = (serElems w ws).length + 1 := by
          rw [hser]
          simp
        obtain ⟨f, rfl⟩ : ∃ f, fuel = f + 1 := ⟨fuel - 1, by omega⟩
        have He : ∀ e ∈ w :: ws, ∀ fuel2 rest2, (serJson e).length ≤ fuel2 →
            noDigitHead rest2 = true →
            parseVal fuel2 (serJson e ++ rest2) = some (e, rest2) := by
          intro e he fuel2 rest2 h1 h2
          have hlt : (serJson e).length < N := by
            have := serElems_length_elem_lt ws w e he
            omega
          exact IH (serJson e).length hlt e le_rfl fuel2 rest2 h1 h2
        have hrec : parseElems f (serElems w ws ++ rest) = some (w :: ws, rest) :=
          parseElems_ser ws w He f rest (by omega)
        obtain ⟨c0, tl0, hc0, hne0⟩ := serElems_head w ws
        have hsplit : serElems w ws ++ rest = c0 :: (tl0 ++ rest) := by
          rw [hc0]
          simp
        rw [hsplit] at hrec
        rw [show serJson (Json.arr (w :: ws)) ++ rest = '[' :: (c0 :: (tl0 ++ rest)) by
          rw [hser, ← hsplit]; simp, parseVal.eq_def]
        simp [show isDigitChar '[' = false by decide, hne0, hrec]
    | obj members =>
      cases members with
      | nil =>
        have hlen : (serJson (Json.obj [])).length = 2 := by simp [serJson]
        obtain ⟨f, rfl⟩ : ∃ f, fuel = f + 1 := ⟨fuel - 1, by omega⟩
        rw [show serJson (Json.obj []) ++ rest = '\x7b' :: '\x7d' :: rest by
          simp [serJson], parseVal.eq_def]
        simp [show isDigitChar '\x7b' = false by decide]
      | cons m ms =>
        have hser : serJson (Json.obj (m :: ms)) = '\x7b' :: serMembers m ms := by
          simp [serJson]
        have hlen : (serJson (Json.obj (m :: ms))).length
            = (serMembers m ms).length + 1 := by
          rw [hser]
          simp
        obtain ⟨f, rfl⟩ : ∃ f, fuel = f + 1 := ⟨fuel - 1, by omega⟩
        have He : ∀ p ∈ m :: ms, ∀ fuel2 rest2, (serJson p.2).length ≤ fuel2 →
            noDigitHead rest2 = true →
            parseVal fuel2 (serJson p.2 ++ rest2) = some (p.2, rest2) := by
          intro p hp fuel2 rest2 h1 h2
          have hlt : (serJson p.2).length < N := by
            have := serMembers_length_value_lt ms m p hp
            omega
          exact IH (serJson p.2).length hlt p.2 le_rfl fuel2 rest2 h1 h2
        have hrec : parseMembers f (serMembers m ms ++ rest) = some (m :: ms, rest) :=
          parseMembers_ser ms m He f rest (by omega)
        obtain ⟨tl0, hc0⟩ := serMembers_head m ms
        have hsplit : serMembers m ms ++ rest = '"' :: (tl0 ++ rest) := by
          rw [hc0]
          simp
        rw [hsplit] at hrec
        rw [show serJson (Json.obj (m :: ms)) ++ rest = '\x7b' :: ('"' :: (tl0 ++ rest)) by
          rw [hser, ← hsplit]; simp, parseVal.eq_def]
        simp [show isDigitChar '\x7b' = false by decide, hrec]

/-- Round trip: parsing the serialized form of any JSON value returns the
value itself. -/
theorem jsonParse_jsonStringify (v : Json) : jsonParse (jsonStringify v) = some v := by
  unfold jsonParse jsonStringify jsonParseChars
  have hdata : ((serJson v).asString).data = serJson v := rfl
  rw [hdata]
  have h := parseVal_ser v ((serJson v).length + 1) [] (by omega) rfl
  rw [List.append_nil] at h
  rw [h]

/-- C8: `callWithFile` produces a multipart body whose `Function` field is
the function name, whose `Parameters` field JSON-parses back to exactly the
given parameter map (round trip through stringify then parse), and whose
`File` part carries the exact content bytes under the declared filename and
MIME type; the request carries only the `Authorization` header — no JSON
`Content-Type` header is set. -/
theorem call_with_file_multipart_shape
    (apiKey functionName : String) (parameters : List (String × Json))
    (file : UploadFile) :
    (callWithFileRequest apiKey functionName parameters file).body =
      .multipart
        [ .field "Function" functionName,
          .field "Parameters" (jsonStringify (.obj parameters)),
          .file "File" file.name file.content file.mimeType ] ∧
    jsonParse (jsonStringify (.obj parameters)) = some (.obj parameters) ∧
    (callWithFileRequest apiKey functionName parameters file).headers
      = [("Authorization", apiKey)] ∧
    (∀ v, ("Content-Type", v) ∉
      (callWithFileRequest apiKey functionName parameters file).headers) := by
  refine ⟨rfl, jsonParse_jsonStringify _, rfl, ?_⟩
  intro v hv
  rw [show (callWithFileRequest apiKey functionName parameters file).headers
      = [("Authorization", apiKey)] from rfl] at hv
  simp [Prod.ext_iff] at hv

/-- Witness for C8: the `Parameters` field of the spec's file-upload
scenario round-trips. -/
theorem call_with_file_multipart_shape_witness :
    jsonParse (jsonStringify (.obj [("ContactId", Json.str "1")]))
      = some (.obj [("ContactId", Json.str "1")]) :=
  (call_with_file_multipart_shape "key" "CreateFile" [("ContactId", Json.str "1")]
    ⟨"a.txt", [97], "text/plain"⟩).2.1

/-- Witness for C1 at a concrete invocation. -/
theorem call_dispatches_without_rate_limiter_witness :
    ClientEffect.acquireRateLimitSlot ∉ callEffects "key" "GetContact" [] :=
  (call_dispatches_without_rate_limiter "key" "GetContact" []
    ⟨"a.txt", [97], "text/plain"⟩).1

/-- Witness for C4 at a concrete custom-field list: one required and one
optional remote field give a required count of 2 fixed + 1 custom = 3. -/
theorem contact_schema_concat_and_required_count_witness :
    (getContactSchemaOutput (GetCustomFieldsResult.arrayResult
      [ { CustomFieldId := "cfA", Name := "A", type := "Text", IsRequired := some true },
        { CustomFieldId := "cfB", Name := "B", type := "Date" } ])).summary.required_count
      = 3 := by
  have h := (contact_schema_concat_and_required_count (GetCustomFieldsResult.arrayResult
    [ { CustomFieldId := "cfA", Name := "A", type := "Text", IsRequired := some true },
      { CustomFieldId := "cfB", Name := "B", type := "Date" } ])).2.2.2.1
  rw [h]
  rfl

end LacrmMcp
